import Mathlib

/-!
Verification development for the nrobo repository.

The core under specification is the `Version` value type (parsing a dotted
three-component version string, derived string projections, ordering and
patch-level arithmetic) together with the subprocess-execution helper
`terminal` from `nrobo/util/process/__init__.py`.

Strings are embedded as `List Char`; natural and integer components are
`Nat`/`Int`; fallible operations return `Except`.
-/

namespace NRobo

/-- Decimal digit character for a digit value below ten. -/
def digitChar : Nat → Char
  | 0 => '0'
  | 1 => '1'
  | 2 => '2'
  | 3 => '3'
  | 4 => '4'
  | 5 => '5'
  | 6 => '6'
  | 7 => '7'
  | 8 => '8'
  | 9 => '9'
  | _ => '*'

/-- Numeric value of a decimal digit character. -/
def charToDigit (c : Char) : Nat := c.toNat - 48

/-- Whether a character is a decimal digit. -/
def isDigitChar (c : Char) : Bool := decide (48 ≤ c.toNat) && decide (c.toNat ≤ 57)

/-- Fuel-driven most-significant-digit-first decimal rendering of a number;
`fuel ≥ n` suffices since `n` has at most `n` digits. -/
def renderNatAux : Nat → Nat → List Char
  | 0, _ => []
  | fuel + 1, n => if n = 0 then [] else renderNatAux fuel (n / 10) ++ [digitChar (n % 10)]

/-- Canonical decimal rendering of a natural number, with no leading zeros. -/
def renderNat (n : Nat) : List Char := if n = 0 then ['0'] else renderNatAux n n

/-- Decimal rendering of an integer, with a leading minus sign when negative. -/
def renderInt (i : Int) : List Char :=
  if i < 0 then '-' :: renderNat i.natAbs else renderNat i.toNat

/-- Canonical dotted form of three natural components, as a character list. -/
def versionChars (a b c : Nat) : List Char :=
  renderNat a ++ ('.' :: (renderNat b ++ ('.' :: renderNat c)))

/-- Dotted form of three integer components, as a character list. -/
def intVersionChars (a b c : Int) : List Char :=
  renderInt a ++ ('.' :: (renderInt b ++ ('.' :: renderInt c)))

/-- Split a character list at every dot character, like Python str.split at a dot:
the result always has one more entry than the number of dots. -/
def splitOnDot : List Char → List (List Char)
  | [] => [[]]
  | c :: cs =>
    if c = '.' then [] :: splitOnDot cs
    else
      match splitOnDot cs with
      | [] => [[c]]
      | t :: ts => (c :: t) :: ts

/-- Parse a nonempty all-digit token as a natural number; `none` otherwise. -/
def parseDigits (cs : List Char) : Option Nat :=
  if cs.isEmpty then none
  else if cs.all isDigitChar then
    some (cs.foldl (fun a c => 10 * a + charToDigit c) 0)
  else none

theorem charToDigit_digitChar {d : Nat} (h : d < 10) : charToDigit (digitChar d) = d := by
  interval_cases d <;> rfl

theorem isDigitChar_digitChar {d : Nat} (h : d < 10) : isDigitChar (digitChar d) = true := by
  interval_cases d <;> rfl

theorem renderNatAux_all_digits (fuel : Nat) :
    ∀ n c, c ∈ renderNatAux fuel n → isDigitChar c = true := by
  induction fuel with
  | zero => intro n c hc; simp [renderNatAux] at hc
  | succ fuel ih =>
    intro n c hc
    simp only [renderNatAux] at hc
    by_cases h0 : n = 0
    · simp [h0] at hc
    · simp [h0, List.mem_append] at hc
      rcases hc with hc | hc
      · exact ih _ _ hc
      · subst hc; exact isDigitChar_digitChar (Nat.mod_lt n (by omega))

theorem renderNat_all_digits (n : Nat) : ∀ c ∈ renderNat n, isDigitChar c = true := by
  intro c hc
  by_cases h0 : n = 0
  · subst h0; simp [renderNat] at hc; subst hc; rfl
  · simp only [renderNat, if_neg h0] at hc
    exact renderNatAux_all_digits n n c hc

theorem renderNatAux_ne_nil {fuel n : Nat} (h1 : 0 < n) (h2 : n ≤ fuel) :
    renderNatAux fuel n ≠ [] := by
  cases fuel with
  | zero => omega
  | succ fuel =>
    have h0 : ¬ n = 0 := by omega
    simp [renderNatAux, h0]

theorem renderNatAux_foldl (fuel : Nat) :
    ∀ n a, n ≤ fuel →
      (renderNatAux fuel n).foldl (fun x c => 10 * x + charToDigit c) a
        = a * 10 ^ (renderNatAux fuel n).length + n := by
  induction fuel with
  | zero => intro n a h; simp [renderNatAux]; omega
  | succ fuel ih =>
    intro n a h
    by_cases h0 : n = 0
    · simp [renderNatAux, h0]
    · have hdiv : n / 10 ≤ fuel := by omega
      simp only [renderNatAux, if_neg h0, List.foldl_append, List.length_append,
        List.foldl_cons, List.foldl_nil, List.length_cons, List.length_nil]
      rw [ih (n / 10) a hdiv, charToDigit_digitChar (Nat.mod_lt n (by omega))]
      have hmod : 10 * (n / 10) + n % 10 = n := by omega
      rw [pow_succ]
      ring_nf
      omega

theorem parseDigits_renderNat (n : Nat) : parseDigits (renderNat n) = some n := by
  by_cases h0 : n = 0
  · subst h0; rfl
  · have hne : renderNatAux n n ≠ [] := renderNatAux_ne_nil (by omega) le_rfl
    have hall : (renderNatAux n n).all isDigitChar = true :=
      List.all_eq_true.mpr fun c hc => renderNatAux_all_digits n n c hc
    have hfold := renderNatAux_foldl n n 0 le_rfl
    simp only [renderNat, if_neg h0, parseDigits, List.isEmpty_iff, hne, if_false, hall,
      if_true, hfold]
    simp

theorem renderNat_no_dot (n : Nat) : ∀ c ∈ renderNat n, ¬ c = '.' := by
  intro c hc heq
  have := renderNat_all_digits n c hc
  subst heq
  simp [isDigitChar] at this

theorem splitOnDot_ne_nil (cs : List Char) : splitOnDot cs ≠ [] := by
  induction cs with
  | nil => simp [splitOnDot]
  | cons c cs ih =>
    simp only [splitOnDot]
    by_cases h : c = '.'
    · simp [h]
    · simp only [h, if_false]
      cases hs : splitOnDot cs with
      | nil => simp
      | cons t ts => simp

theorem splitOnDot_no_dot (cs : List Char) (h : ∀ c ∈ cs, ¬ c = '.') :
    splitOnDot cs = [cs] := by
  induction cs with
  | nil => rfl
  | cons c cs ih =>
    have hc : ¬ c = '.' := h c (by simp)
    have hrest : splitOnDot cs = [cs] := ih fun x hx => h x (by simp [hx])
    simp [splitOnDot, hc, hrest]

theorem splitOnDot_append (xs ys : List Char) (h : ∀ c ∈ xs, ¬ c = '.') :
    splitOnDot (xs ++ '.' :: ys) = xs :: splitOnDot ys := by
  induction xs with
  | nil => simp [splitOnDot]
  | cons x xs ih =>
    have hx : ¬ x = '.' := h x (by simp)
    have hrest := ih fun c hc => h c (by simp [hc])
    simp only [List.cons_append, splitOnDot, hx, if_false, List.append_eq, hrest]

theorem splitOnDot_versionChars (a b c : Nat) :
    splitOnDot (versionChars a b c) = [renderNat a, renderNat b, renderNat c] := by
  unfold versionChars
  rw [splitOnDot_append _ _ (renderNat_no_dot a),
    splitOnDot_append _ _ (renderNat_no_dot b),
    splitOnDot_no_dot _ (renderNat_no_dot c)]

/-- Modelled from the spec: the two error kinds of the Version core.
`incorrectVersion` is raised by construction/parsing and identifies the
offending input string; `invalidOperation` is raised when a comparison or
arithmetic operation is attempted with an operand of the wrong type.
The `nrobo/exceptions` module itself is not under `src/`. -/
inductive NRoboError where
  | incorrectVersion (input : List Char)
  | invalidOperation
deriving DecidableEq

/-- Modelled from the spec: the Version value type storing the three
non-negative integer components `major.minor.patch`. The implementation
module `nrobo/util/version` is not under `src/`; only its tests are. -/
structure Version where
  major : Nat
  minor : Nat
  patch : Nat
deriving DecidableEq

/-- Modelled from the spec: construction/parsing. The input must decompose
into exactly three dot-separated non-negative integer tokens; otherwise the
parse fails with `IncorrectVersion` carrying the offending input, and no
Version is produced. -/
def Version.parse (s : List Char) : Except NRoboError Version :=
  match splitOnDot s with
  | [t1, t2, t3] =>
    match parseDigits t1, parseDigits t2, parseDigits t3 with
    | some a, some b, some c => .ok ⟨a, b, c⟩
    | _, _, _ => .error (.incorrectVersion s)
  | _ => .error (.incorrectVersion s)

/-- Whether an input decomposes into exactly three dot-separated
non-negative integer tokens. -/
def wellFormedTokens (s : List Char) : Bool :=
  match splitOnDot s with
  | [t1, t2, t3] =>
    (parseDigits t1).isSome && (parseDigits t2).isSome && (parseDigits t3).isSome
  | _ => false

/-- Modelled from the spec: the canonical string accessor
`"{major}.{minor}.{patch}"`. -/
def Version.version (v : Version) : List Char :=
  versionChars v.major v.minor v.patch

/-- Modelled from the spec: numeric accessor `major + 1`. -/
def Version.major_next (v : Version) : Int := (v.major : Int) + 1

/-- Modelled from the spec: numeric accessor `major - 1`; may go negative. -/
def Version.major_prev (v : Version) : Int := (v.major : Int) - 1

/-- Modelled from the spec: numeric accessor `patch + 1`. -/
def Version.patch_next (v : Version) : Int := (v.patch : Int) + 1

/-- Modelled from the spec: numeric accessor `patch - 1`; may go negative. -/
def Version.patch_prev (v : Version) : Int := (v.patch : Int) - 1

/-- Modelled from the spec: canonical string with major replaced by
`major + 1`, minor and patch unchanged. -/
def Version.major_incremented (v : Version) : List Char :=
  intVersionChars ((v.major : Int) + 1) (v.minor : Int) (v.patch : Int)

/-- Modelled from the spec: canonical string with major replaced by
`major - 1`, minor and patch unchanged. -/
def Version.major_decremented (v : Version) : List Char :=
  intVersionChars ((v.major : Int) - 1) (v.minor : Int) (v.patch : Int)

/-- Modelled from the spec: canonical string with minor replaced by
`minor + 1`, major and patch unchanged. -/
def Version.minor_incremented (v : Version) : List Char :=
  intVersionChars (v.major : Int) ((v.minor : Int) + 1) (v.patch : Int)

/-- Modelled from the spec: canonical string with minor replaced by
`minor - 1`, major and patch unchanged. -/
def Version.minor_decremented (v : Version) : List Char :=
  intVersionChars (v.major : Int) ((v.minor : Int) - 1) (v.patch : Int)

/-- Modelled from the spec: canonical string with patch replaced by
`patch + 1`, major and minor unchanged. -/
def Version.patch_incremented (v : Version) : List Char :=
  intVersionChars (v.major : Int) (v.minor : Int) ((v.patch : Int) + 1)

/-- Modelled from the spec: canonical string with patch replaced by
`patch - 1`, major and minor unchanged. -/
def Version.patch_decremented (v : Version) : List Char :=
  intVersionChars (v.major : Int) (v.minor : Int) ((v.patch : Int) - 1)

/-- Modelled from the spec: canonical string with patch replaced by
`patch + 1` (its own row of the accessor table). -/
def Version.version_next (v : Version) : List Char :=
  intVersionChars (v.major : Int) (v.minor : Int) ((v.patch : Int) + 1)

/-- Modelled from the spec: canonical string with patch replaced by
`patch - 1` (its own row of the accessor table). -/
def Version.version_prev (v : Version) : List Char :=
  intVersionChars (v.major : Int) (v.minor : Int) ((v.patch : Int) - 1)

/-- Modelled from the spec: alias of the patch-level increment. -/
def Version.version_incremented (v : Version) : List Char :=
  v.patch_incremented

/-- Modelled from the spec: alias of the patch-level decrement. -/
def Version.version_decremented (v : Version) : List Char :=
  v.patch_decremented

/-- Modelled from the spec: lexicographic strict order on
`(major, minor, patch)` — major dominates, then minor, then patch. -/
def Version.ltB (x y : Version) : Bool :=
  decide (x.major < y.major) ||
    (decide (x.major = y.major) &&
      (decide (x.minor < y.minor) ||
        (decide (x.minor = y.minor) && decide (x.patch < y.patch))))

/-- Modelled from the spec: equality holds iff all three components match. -/
def Version.beq (x y : Version) : Bool :=
  decide (x.major = y.major) && decide (x.minor = y.minor) && decide (x.patch = y.patch)

/-- Modelled from the spec: strict greater-than, the mirror of `ltB`. -/
def Version.gtB (x y : Version) : Bool := Version.ltB y x

/-- Modelled from the spec: `<=` is the disjunction of `<` and `==`. -/
def Version.leB (x y : Version) : Bool := Version.ltB x y || Version.beq x y

/-- Modelled from the spec: `>=` is the disjunction of `>` and `==`. -/
def Version.geB (x y : Version) : Bool := Version.gtB x y || Version.beq x y

/-- A runtime operand of the dynamically typed source language: a Version
instance, an integer, or some other value. -/
inductive PyVal where
  | ver (v : Version)
  | int (n : Int)
  | str (s : List Char)
deriving DecidableEq

/-- Whether a runtime operand is a Version instance. -/
def PyVal.isVer : PyVal → Bool
  | .ver _ => true
  | _ => false

/-- Whether a runtime operand is an integer. -/
def PyVal.isInt : PyVal → Bool
  | .int _ => true
  | _ => false

/-- Modelled from the spec: `<` against an arbitrary runtime operand;
defined only between two Version instances, otherwise `InvalidOperation`. -/
def Version.ltOp (v : Version) (x : PyVal) : Except NRoboError Bool :=
  match x with
  | .ver w => .ok (Version.ltB v w)
  | _ => .error .invalidOperation

/-- Modelled from the spec: `>` against an arbitrary runtime operand;
defined only between two Version instances, otherwise `InvalidOperation`. -/
def Version.gtOp (v : Version) (x : PyVal) : Except NRoboError Bool :=
  match x with
  | .ver w => .ok (Version.gtB v w)
  | _ => .error .invalidOperation

/-- Modelled from the spec: `Version + integer` operates on the patch
component only, and the result is re-validated to the construction
invariants — a negative patch fails with `IncorrectVersion` carrying the
offending textual form (§7 underflow policy). A non-integer right-hand
side fails with `InvalidOperation`. -/
def Version.addOp (v : Version) (x : PyVal) : Except NRoboError Version :=
  match x with
  | .int n =>
    let p : Int := (v.patch : Int) + n
    if 0 ≤ p then .ok ⟨v.major, v.minor, p.toNat⟩
    else .error (.incorrectVersion (intVersionChars (v.major : Int) (v.minor : Int) p))
  | _ => .error .invalidOperation

/-- Modelled from the spec: `Version - integer`, symmetric to addition on
the patch component, with the same re-validation and type policy. -/
def Version.subOp (v : Version) (x : PyVal) : Except NRoboError Version :=
  match x with
  | .int n =>
    let p : Int := (v.patch : Int) - n
    if 0 ≤ p then .ok ⟨v.major, v.minor, p.toNat⟩
    else .error (.incorrectVersion (intVersionChars (v.major : Int) (v.minor : Int) p))
  | _ => .error .invalidOperation

/-- Result of one subprocess invocation attempted by `terminal`: the child
process completed with an exit status, or the invocation raised
FileNotFoundError, or it raised some other exception. -/
inductive SpOutcome where
  | completed (rc : Int)
  | fileNotFound
  | otherError
deriving DecidableEq

/-- Model of `subprocess.CompletedProcess` as returned by `subprocess.run`. -/
structure CompletedProcess where
  returncode : Int
deriving DecidableEq

/-- What `terminal` returns: an integer status code or a CompletedProcess
object (the code declares `-> int` but one branch returns the latter). -/
inductive TermResult where
  | retInt (n : Int)
  | retCompleted (cp : CompletedProcess)
deriving DecidableEq

/-- Whether a `terminal` result is an integer status code. -/
def TermResult.isInt : TermResult → Bool
  | .retInt _ => true
  | .retCompleted _ => false

/-- The argument and environment flags `terminal` branches on: truthiness of
the `stdout`, `stderr`, `capture_output` and `text` parameters, the `debug`
parameter, and whether `os.environ[EnvKeys.DEBUG]` equals "True". -/
structure TerminalArgs where
  stdout : Bool
  stderr : Bool
  capture_output : Bool
  text : Bool
  debug : Bool
  envDebugTrue : Bool
deriving DecidableEq

/-- The debug flag `terminal` computes: the `debug` parameter, or else the
environment flag (the environment is read only when the parameter is False,
which is the same as the disjunction; the DEBUG key is assumed present). -/
def terminalDebug (a : TerminalArgs) : Bool := a.debug || a.envDebugTrue

/-- One `subprocess.check_call` from `terminal`'s body: on a nonzero exit
status the per-branch handler returns `e.returncode`; FileNotFoundError and
any other exception reach the outer handlers, which return 100; on success
(`some r` = early return with r, `none` = fall through). -/
def checkCallStep (o : SpOutcome) : Option Int :=
  match o with
  | .completed rc => if rc = 0 then none else some rc
  | .fileNotFound => some 100
  | .otherError => some 100

/-- Shallow embedding of `terminal` from `nrobo/util/process/__init__.py`.
`o1` is the outcome of the first subprocess invocation the control flow
performs and `o2` of the second, when one happens: with `text` and
`capture_output` both truthy the single `subprocess.run` call returns its
CompletedProcess (it is not checked, so it raises no CalledProcessError);
otherwise, when the debug flag is set, a first `check_call` runs, and then
— whether via the `(stdout and stderr) or debug is False` branch or its
else branch — exactly one more `check_call` runs; with the debug flag
clear only the redirected `check_call` runs. Every check_call failure path
returns an integer, and falling off the end returns 0. -/
def terminal (a : TerminalArgs) (o1 o2 : SpOutcome) : TermResult :=
  if a.text && a.capture_output then
    match o1 with
    | .completed rc => .retCompleted ⟨rc⟩
    | .fileNotFound => .retInt 100
    | .otherError => .retInt 100
  else if terminalDebug a then
    match checkCallStep o1 with
    | some r => .retInt r
    | none =>
      match checkCallStep o2 with
      | some r => .retInt r
      | none => .retInt 0
  else
    match checkCallStep o1 with
    | some r => .retInt r
    | none => .retInt 0

/-- C1: for every two Version instances x and y, comparison is lexicographic on
(major, minor, patch) with major dominating; exactly one of x < y, x == y,
x > y holds; x == y iff all three components match; and <= (resp. >=) is the
disjunction of < (resp. >) with ==, consistent with the strict operators. -/
theorem claim1_ordering_lexicographic (x y : Version) :
    ((x.ltB y = true ∧ ¬ x.beq y = true ∧ ¬ x.gtB y = true) ∨
      (¬ x.ltB y = true ∧ x.beq y = true ∧ ¬ x.gtB y = true) ∨
      (¬ x.ltB y = true ∧ ¬ x.beq y = true ∧ x.gtB y = true))
    ∧ (x.beq y = true ↔ x.major = y.major ∧ x.minor = y.minor ∧ x.patch = y.patch)
    ∧ (x.ltB y = true ↔
        x.major < y.major ∨ (x.major = y.major ∧
          (x.minor < y.minor ∨ (x.minor = y.minor ∧ x.patch < y.patch))))
    ∧ (x.leB y = true ↔ (x.ltB y = true ∨ x.beq y = true))
    ∧ (x.geB y = true ↔ (x.gtB y = true ∨ x.beq y = true)) := by
  simp only [Version.ltB, Version.beq, Version.gtB, Version.leB, Version.geB,
    Bool.or_eq_true, Bool.and_eq_true, decide_eq_true_eq, and_true, true_and]
  omega

/-- C2: for every canonical, non-zero-padded string "{a}.{b}.{c}" with
non-negative integers a, b, c, parsing succeeds and the resulting Version's
`version` accessor returns a string equal to the input. -/
theorem claim2_parse_version_roundtrip (a b c : Nat) :
    Version.parse (versionChars a b c) = .ok ⟨a, b, c⟩
      ∧ (Version.mk a b c).version = versionChars a b c := by
  constructor
  · unfold Version.parse
    rw [splitOnDot_versionChars]
    simp [parseDigits_renderNat]
  · rfl

/-- C3: every input that does not decompose into exactly three dot-separated
non-negative integer tokens fails with IncorrectVersion identifying the input,
and no Version is produced. -/
theorem claim3_malformed_parse_fails (s : List Char)
    (h : wellFormedTokens s = false) :
    Version.parse s = .error (.incorrectVersion s) := by
  unfold Version.parse
  unfold wellFormedTokens at h
  cases hs : splitOnDot s with
  | nil => rfl
  | cons t1 rest1 =>
    rw [hs] at h
    cases rest1 with
    | nil => rfl
    | cons t2 rest2 =>
      cases rest2 with
      | nil => rfl
      | cons t3 rest3 =>
        cases rest3 with
        | cons t4 rest4 => rfl
        | nil =>
          cases h1 : parseDigits t1 <;> cases h2 : parseDigits t2 <;>
            cases h3 : parseDigits t3 <;> simp_all

/-- Closed instance for C3 at the test file's malformed input "2010.d.45". -/
theorem claim3_witness :
    wellFormedTokens ("2010.d.45".toList) = false ∧
    Version.parse ("2010.d.45".toList)
      = .error (.incorrectVersion ("2010.d.45".toList)) :=
  ⟨rfl, claim3_malformed_parse_fails _ rfl⟩

/-- C4: comparing a Version with a non-Version operand fails with
InvalidOperation (symmetrically for < and >), and arithmetic with a
non-integer operand fails with InvalidOperation; nothing is coerced. -/
theorem claim4_cross_type_invalid_operation (v : Version) (x : PyVal) :
    (x.isVer = false →
      v.ltOp x = .error .invalidOperation ∧ v.gtOp x = .error .invalidOperation)
    ∧ (x.isInt = false →
      v.addOp x = .error .invalidOperation ∧ v.subOp x = .error .invalidOperation) := by
  cases x <;> simp [PyVal.isVer, PyVal.isInt, Version.ltOp, Version.gtOp,
    Version.addOp, Version.subOp]

/-- Closed instance for C4: comparing with the raw integer 2 and adding a
non-integer both fail with InvalidOperation. -/
theorem claim4_witness :
    PyVal.isVer (PyVal.int 2) = false ∧
    PyVal.isInt (PyVal.str ['a']) = false ∧
    (Version.mk 2024 6 1).ltOp (.int 2) = .error .invalidOperation ∧
    (Version.mk 2024 6 1).gtOp (.int 2) = .error .invalidOperation ∧
    (Version.mk 2024 6 1).addOp (.str ['a']) = .error .invalidOperation ∧
    (Version.mk 2024 6 1).subOp (.str ['a']) = .error .invalidOperation :=
  ⟨rfl, rfl,
    ((claim4_cross_type_invalid_operation ⟨2024, 6, 1⟩ (.int 2)).1 rfl).1,
    ((claim4_cross_type_invalid_operation ⟨2024, 6, 1⟩ (.int 2)).1 rfl).2,
    ((claim4_cross_type_invalid_operation ⟨2024, 6, 1⟩ (.str ['a'])).2 rfl).1,
    ((claim4_cross_type_invalid_operation ⟨2024, 6, 1⟩ (.str ['a'])).2 rfl).2⟩

/-- C5 as frozen is false: at v = Version "2024.6.1" and n = 5, v - n is not a
Version instance equal to (2024, 6, -4) — re-validation of the patch
component rejects the negative value with IncorrectVersion. -/
theorem claim5_counterexample :
    ((Version.mk 2024 6 1).subOp (.int 5)).isOk = false ∧
    (Version.mk 2024 6 1).subOp (.int 5)
      = .error (.incorrectVersion ("2024.6.-4".toList)) :=
  ⟨rfl, rfl⟩

/-- C5 amended: whenever patch + n (resp. patch - n) is non-negative, v + n
(resp. v - n) is a new Version equal to (major, minor, patch ± n), changing
only the patch component and satisfying the construction invariants; when the
resulting patch would be negative the operation fails re-validation with
IncorrectVersion carrying the offending textual form. -/
theorem claim5_patch_arithmetic_amended (v : Version) (n : Int) :
    (0 ≤ (v.patch : Int) + n →
      v.addOp (.int n) = .ok ⟨v.major, v.minor, ((v.patch : Int) + n).toNat⟩)
    ∧ (0 ≤ (v.patch : Int) - n →
      v.subOp (.int n) = .ok ⟨v.major, v.minor, ((v.patch : Int) - n).toNat⟩)
    ∧ ((v.patch : Int) + n < 0 →
      v.addOp (.int n) = .error (.incorrectVersion
        (intVersionChars (v.major : Int) (v.minor : Int) ((v.patch : Int) + n))))
    ∧ ((v.patch : Int) - n < 0 →
      v.subOp (.int n) = .error (.incorrectVersion
        (intVersionChars (v.major : Int) (v.minor : Int) ((v.patch : Int) - n)))) := by
  refine ⟨fun h => ?_, fun h => ?_, fun h => ?_, fun h => ?_⟩ <;>
    · simp only [Version.addOp, Version.subOp]
      split <;> first | rfl | omega

/-- Closed instance for C5 amended, at patch 1 with n = 5 and n = -5,
covering both the in-range and the underflow hypotheses. -/
theorem claim5_witness :
    (Version.mk 2024 6 1).addOp (.int 5) = .ok ⟨2024, 6, 6⟩ ∧
    (Version.mk 2024 6 1).subOp (.int (-5)) = .ok ⟨2024, 6, 6⟩ ∧
    (Version.mk 2024 6 1).addOp (.int (-5))
      = .error (.incorrectVersion (intVersionChars 2024 6 (-4))) ∧
    (Version.mk 2024 6 1).subOp (.int 5)
      = .error (.incorrectVersion (intVersionChars 2024 6 (-4))) :=
  ⟨(claim5_patch_arithmetic_amended ⟨2024, 6, 1⟩ 5).1 (by decide),
    (claim5_patch_arithmetic_amended ⟨2024, 6, 1⟩ (-5)).2.1 (by decide),
    (claim5_patch_arithmetic_amended ⟨2024, 6, 1⟩ (-5)).2.2.1 (by decide),
    (claim5_patch_arithmetic_amended ⟨2024, 6, 1⟩ 5).2.2.2 (by decide)⟩

/-- C6: arithmetic is consistent with ordering — v + n succeeds and yields
(major, minor, patch + n); the result is strictly greater than v when n > 0;
and subtracting the same n gives back exactly v. -/
theorem claim6_arith_order_consistency (v : Version) (n : Nat) :
    v.addOp (.int (n : Int)) = .ok ⟨v.major, v.minor, v.patch + n⟩
    ∧ (0 < n → (Version.mk v.major v.minor (v.patch + n)).gtB v = true)
    ∧ (Version.mk v.major v.minor (v.patch + n)).subOp (.int (n : Int)) = .ok v := by
  obtain ⟨ma, mi, pa⟩ := v
  refine ⟨?_, fun h => ?_, ?_⟩
  · simp only [Version.addOp]
    split
    · simp only [Except.ok.injEq, Version.mk.injEq, true_and]
      omega
    · exfalso; omega
  · simp [Version.gtB, Version.ltB]
    omega
  · simp only [Version.subOp]
    split
    · simp only [Except.ok.injEq, Version.mk.injEq, true_and]
      omega
    · exfalso; omega

/-- Closed instance for C6 at v = Version "2024.6.1" and n = 1, matching the
test file's `version_1 + 1 == version_2` and `version_3 - 1 == version_2`. -/
theorem claim6_witness :
    (Version.mk 2024 6 1).addOp (.int 1) = .ok ⟨2024, 6, 2⟩ ∧
    (0 : Nat) < 1 ∧
    (Version.mk 2024 6 2).gtB ⟨2024, 6, 1⟩ = true ∧
    (Version.mk 2024 6 2).subOp (.int 1) = .ok ⟨2024, 6, 1⟩ :=
  ⟨(claim6_arith_order_consistency ⟨2024, 6, 1⟩ 1).1, by decide,
    (claim6_arith_order_consistency ⟨2024, 6, 1⟩ 1).2.1 (by decide),
    (claim6_arith_order_consistency ⟨2024, 6, 1⟩ 1).2.2⟩

/-- C7: each of the six bump methods returns a string in which exactly one
component is bumped by 1 and the other two are unchanged; at the test file's
Version "2024.6.1" the increments give "2025.6.1", "2024.7.1", "2024.6.2". -/
theorem claim7_bump_strings (v : Version) :
    v.major_incremented
        = intVersionChars ((v.major : Int) + 1) (v.minor : Int) (v.patch : Int)
    ∧ v.major_decremented
        = intVersionChars ((v.major : Int) - 1) (v.minor : Int) (v.patch : Int)
    ∧ v.minor_incremented
        = intVersionChars (v.major : Int) ((v.minor : Int) + 1) (v.patch : Int)
    ∧ v.minor_decremented
        = intVersionChars (v.major : Int) ((v.minor : Int) - 1) (v.patch : Int)
    ∧ v.patch_incremented
        = intVersionChars (v.major : Int) (v.minor : Int) ((v.patch : Int) + 1)
    ∧ v.patch_decremented
        = intVersionChars (v.major : Int) (v.minor : Int) ((v.patch : Int) - 1)
    ∧ (Version.mk 2024 6 1).major_incremented = "2025.6.1".toList
    ∧ (Version.mk 2024 6 1).minor_incremented = "2024.7.1".toList
    ∧ (Version.mk 2024 6 1).patch_incremented = "2024.6.2".toList :=
  ⟨rfl, rfl, rfl, rfl, rfl, rfl, rfl, rfl, rfl⟩

/-- C8: the whole-version bump operations are aliases of the patch-level
ones — version_incremented/version_decremented and version_next/version_prev
all coincide with patch_incremented/patch_decremented. -/
theorem claim8_version_bump_aliases (v : Version) :
    v.version_incremented = v.patch_incremented
    ∧ v.version_decremented = v.patch_decremented
    ∧ v.version_next = v.patch_incremented
    ∧ v.version_prev = v.patch_decremented :=
  ⟨rfl, rfl, rfl, rfl⟩

/-- C9: with text and capture_output both truthy, a completed subprocess.run
makes terminal return the CompletedProcess object, not an integer; in every
other configuration the result is an integer, and 0 when every check_call
succeeds. -/
theorem claim9_terminal_return_shape (a : TerminalArgs) (o1 o2 : SpOutcome) :
    ((a.text && a.capture_output) = true →
      ∀ rc : Int, o1 = .completed rc → terminal a o1 o2 = .retCompleted ⟨rc⟩)
    ∧ ((a.text && a.capture_output) = false → (terminal a o1 o2).isInt = true)
    ∧ ((a.text && a.capture_output) = false → o1 = .completed 0 →
        o2 = .completed 0 → terminal a o1 o2 = .retInt 0) := by
  refine ⟨fun h rc h1 => ?_, fun h => ?_, fun h h1 h2 => ?_⟩
  · subst h1; simp [terminal, h]
  · simp only [terminal, h, Bool.false_eq_true, if_false]
    split
    · cases hc1 : checkCallStep o1 with
      | some r => rfl
      | none => cases hc2 : checkCallStep o2 <;> rfl
    · cases hc1 : checkCallStep o1 <;> rfl
  · subst h1; subst h2
    simp [terminal, h, checkCallStep]

/-- Closed instance for C9: the run branch returns the CompletedProcess with
returncode 3; a debug configuration returns an integer; the plain path with
a succeeding check_call returns 0. -/
theorem claim9_witness :
    terminal ⟨false, false, true, true, false, false⟩ (.completed 3) (.completed 0)
      = .retCompleted ⟨3⟩
    ∧ (terminal ⟨false, false, false, false, true, false⟩ (.completed 2)
        (.completed 0)).isInt = true
    ∧ terminal ⟨false, false, false, false, false, false⟩ (.completed 0)
        (.completed 0) = .retInt 0 :=
  ⟨(claim9_terminal_return_shape ⟨false, false, true, true, false, false⟩
      (.completed 3) (.completed 0)).1 rfl 3 rfl,
    (claim9_terminal_return_shape ⟨false, false, false, false, true, false⟩
      (.completed 2) (.completed 0)).2.1 rfl,
    (claim9_terminal_return_shape ⟨false, false, false, false, false, false⟩
      (.completed 0) (.completed 0)).2.2 rfl rfl rfl⟩

/-- C10: when a subprocess invocation raises FileNotFoundError or any other
exception that is not a CalledProcessError, terminal catches it and returns
the integer 100 — for the first invocation in every configuration, and for
the second invocation when the debug flow reaches it. -/
theorem claim10_terminal_catches_exceptions (a : TerminalArgs) (o1 o2 : SpOutcome) :
    ((o1 = .fileNotFound ∨ o1 = .otherError) → terminal a o1 o2 = .retInt 100)
    ∧ ((a.text && a.capture_output) = false → terminalDebug a = true →
        o1 = .completed 0 → (o2 = .fileNotFound ∨ o2 = .otherError) →
        terminal a o1 o2 = .retInt 100) := by
  constructor
  · rintro (rfl | rfl) <;> simp [terminal, checkCallStep]
  · rintro h hd rfl (rfl | rfl) <;> simp [terminal, h, hd, checkCallStep]

/-- Closed instance for C10: a FileNotFoundError on the first invocation and
an arbitrary exception on the second both yield 100. -/
theorem claim10_witness :
    terminal ⟨false, false, false, false, false, false⟩ .fileNotFound
      (.completed 0) = .retInt 100
    ∧ terminal ⟨false, false, false, false, true, false⟩ (.completed 0)
      .otherError = .retInt 100 :=
  ⟨(claim10_terminal_catches_exceptions ⟨false, false, false, false, false, false⟩
      .fileNotFound (.completed 0)).1 (Or.inl rfl),
    (claim10_terminal_catches_exceptions ⟨false, false, false, false, true, false⟩
      (.completed 0) .otherError).2 rfl rfl rfl (Or.inr rfl)⟩

end NRobo
